import Mathlib

/-
Verification development for the client-side usage-event logger
(`cvat-core/src/log.js` and the logger-storage module).

The JavaScript code is shallowly embedded: JS values are an inductive
type (objects live in an explicit heap, so that circular structures and
shallow copies can be expressed), JS objects are association lists with
unique keys maintained by the `setField`/`deleteField` operations, and
the stateful methods become pure functions that take and return the
relevant state.  Wall-clock reads (`Date.now()`, `new Date()`) and the
host focus query (`window.document.hasFocus()`) are passed in as
explicit parameters.  The plugin-dispatch wrapper (`PluginRegistry
.apiWrapper`) is a pass-through collaborator and is modelled as a direct
call of each `.implementation` function.
-/

set_option autoImplicit false

/-- A JavaScript runtime value as used by the logger: primitives plus
references to heap objects.  `undef` is the JS `undefined` value. -/
inductive JSVal where
  | num (q : ℚ)
  | str (s : String)
  | bool (b : Bool)
  | null
  | undef
  | ref (a : Nat)
  deriving DecidableEq

/-- A JS object: its own enumerable fields in insertion order. -/
abbrev JSObj := List (String × JSVal)

/-- The object heap: addresses mapped to objects (first binding wins). -/
abbrev Heap := List (Nat × JSObj)

/-- Look an address up in the heap; a dangling address reads as the
empty object (the embedding never creates dangling refs). -/
def heapGet (h : Heap) (a : Nat) : JSObj :=
  (((h.find? (fun p => p.1 == a)).map Prod.snd).getD [])

/-- An address unused by the heap, for allocating object literals. -/
def freshAddr (h : Heap) : Nat :=
  h.foldl (fun m p => max m (p.1 + 1)) 0

/-- Own-property read: the first field with the given key. -/
def getField : JSObj → String → Option JSVal
  | [], _ => none
  | (k0, v0) :: rest, k => if k0 = k then some v0 else getField rest k

/-- The JS `in` operator: whether the object has the key. -/
def hasField (o : JSObj) (k : String) : Bool :=
  (getField o k).isSome

/-- Property assignment: overwrite the existing field in place, or
append a new field at the end (JS enumeration-order semantics). -/
def setField : JSObj → String → JSVal → JSObj
  | [], k, v => [(k, v)]
  | (k0, v0) :: rest, k, v =>
      if k0 = k then (k, v) :: rest else (k0, v0) :: setField rest k v

/-- The JS `delete` operator on an own property. -/
def deleteField : JSObj → String → JSObj
  | [], _ => []
  | (k0, v0) :: rest, k =>
      if k0 = k then deleteField rest k else (k0, v0) :: deleteField rest k

/-- Spreading one object's fields over another, as in the object
literal with two spreads: later fields overwrite earlier ones. -/
def spreadObj (a b : JSObj) : JSObj :=
  b.foldl (fun acc p => setField acc p.1 p.2) a

/-- Spreading an arbitrary value inside an object literal: a reference
spreads the object's own fields, a string spreads its characters under
index keys, and every other primitive (including null and undefined)
contributes nothing. -/
def spreadVal (h : Heap) (v : JSVal) : JSObj :=
  match v with
  | .ref a => heapGet h a
  | .str s => s.data.enum.map (fun p => (toString p.1, JSVal.str (String.singleton p.2)))
  | _ => []

/-- Whether `JSON.stringify` succeeds on the value.  `stringifyOk`
mirrors the host's cycle detection: it tracks the addresses on the
current recursion path and fails when one recurs.  The fuel argument is
only a termination device; started at `h.length + 1` it can never run
out, because each recursive step pushes a fresh in-heap address onto
the path. -/
def stringifyOk (h : Heap) : Nat → List Nat → JSVal → Bool
  | _, _, .num _ => true
  | _, _, .str _ => true
  | _, _, .bool _ => true
  | _, _, .null => true
  | _, _, .undef => true
  | 0, _, .ref _ => false
  | fuel + 1, seen, .ref a =>
      if a ∈ seen then false
      else (heapGet h a).all (fun p => stringifyOk h fuel (a :: seen) p.2)

/-- `JSON.stringify(v)` does not throw. -/
def jsonSerializable (h : Heap) (v : JSVal) : Bool :=
  stringifyOk h (h.length + 1) [] v

/-- The JS `typeof v === 'object'` test.  In JS, `typeof null` is
`'object'`, so `null` passes it. -/
def typeofIsObject : JSVal → Bool
  | .ref _ => true
  | .null => true
  | _ => false

/-- `Number.isInteger(v)`: true exactly for integral numbers. -/
def numIsInteger : JSVal → Bool
  | .num q => q.den == 1
  | _ => false

/-- The JS comparison `v < q` for the numeric values the validators
reach (non-numbers compare false; the validators only compare after an
isInteger check, so only the numeric case matters). -/
def jsNumLt (v : JSVal) (q : ℚ) : Bool :=
  match v with
  | .num x => decide (x < q)
  | _ => false

/-- Errors surfaced by the embedded code: the repository's
`ArgumentError` (the validation error of the spec) and the host's
`TypeError` (raised when a non-function is invoked). -/
inductive JSError where
  | argumentError (msg : String)
  | typeError (msg : String)
  deriving DecidableEq

/-- Property access `v[k]`: reads the heap object's field (absent
fields read as `undefined`); on `null`/`undefined` the host throws a
`TypeError`; on other primitives the accessed property is undefined
here. -/
def jsGetProp (h : Heap) (v : JSVal) (k : String) : Except JSError JSVal :=
  match v with
  | .ref a => Except.ok ((getField (heapGet h a) k).getD JSVal.undef)
  | .null => Except.error (JSError.typeError ("Cannot read properties of null (reading " ++ k ++ ")"))
  | .undef => Except.error (JSError.typeError ("Cannot read properties of undefined (reading " ++ k ++ ")"))
  | _ => Except.ok JSVal.undef

/-- Whether the character list `pat` occurs at the start of `s`. -/
def startsWithChars : List Char → List Char → Bool
  | _, [] => true
  | [], _ :: _ => false
  | c :: cs, d :: ds => c == d && startsWithChars cs ds

/-- Whether the character list `pat` occurs anywhere inside `s`. -/
def containsChars : List Char → List Char → Bool
  | [], pat => startsWithChars [] pat
  | c :: cs, pat => startsWithChars (c :: cs) pat || containsChars cs pat

/-- Substring test used to state that an error message mentions a
field name. -/
def strContains (s pat : String) : Bool :=
  containsChars s.data pat.data

/-- Models the host's `Date#toISOString`: the claims treat the
timestamp string opaquely, so only its dependence on the stored time is
kept, not the calendar format. -/
def toISOString (t : Int) : String :=
  "time:" ++ toString t

/-- One `if (key in payload) \x7b body[key] = payload[key]; delete
payload[key] \x7d` block of `Log#dump`: returns the lifted top-level
value (absent when the key is absent) and the payload after the
conditional delete. -/
def liftKey (o : JSObj) (k : String) : Option JSVal × JSObj :=
  if hasField o k then (getField o k, deleteField o k) else (none, o)

/-- Modelled from the spec: the `LogType` enumeration of
`cvat-core/src/enums.js` is not under `src/`; its members follow the
tag list of the spec (generic tags under `other`). -/
inductive LogType where
  | deleteObject
  | sendTaskInfo
  | loadJob
  | mergeObjects
  | copyObject
  | propagateObject
  | undoAction
  | redoAction
  | sendUserActivity
  | sendException
  | other (tag : String)
  deriving DecidableEq

/-- Modelled from the spec: the string value of each `LogType` member,
used only inside error messages. -/
def logTypeName : LogType → String
  | .deleteObject => "delete-object"
  | .sendTaskInfo => "send-task-info"
  | .loadJob => "job-load"
  | .mergeObjects => "merge-objects"
  | .copyObject => "copy-object"
  | .propagateObject => "propagate-object"
  | .undoAction => "undo-action"
  | .redoAction => "redo-action"
  | .sendUserActivity => "send-user-activity"
  | .sendException => "send-exception"
  | .other tag => tag

/-- The `Log` class state (`cvat-core/src/log.js`, constructor lines
20-34).  `onCloseCallback` is `null` or the registered hook; the hook's
body is irrelevant to the claims, so only its presence is kept.
`time` is the construction timestamp in milliseconds; `isActive` is the
host focus state (`undefined` outside a browser). -/
structure Log where
  type : LogType
  isDurable : JSVal
  payload : JSObj
  onCloseCallback : Option Unit
  time : Int
  isActive : Option Bool
  deriving DecidableEq

/-- The message of the constructor's serializability error (the host
error text appended by `error.toString()` is omitted). -/
def serializableErrMsg : String :=
  "Log payload must be JSON serializable."

/-- `new Log(logType, isDurable, payload)`: `JSON.stringify(payload)`
must not throw, then the record stores a shallow copy of the payload's
own fields, the construction time and the host focus state. -/
def logNew (t : LogType) (isD : JSVal) (p : JSVal) (h : Heap) (now : Int)
    (focus : Option Bool) : Except JSError Log :=
  if jsonSerializable h p then
    Except.ok
      { type := t
        isDurable := isD
        payload := spreadVal h p
        onCloseCallback := none
        time := now
        isActive := focus }
  else
    Except.error (JSError.argumentError serializableErrMsg)

/-- `Log#onClose(callback)`: store the callback, overwriting any
previous registration. -/
def Log.onClose (l : Log) (cb : Unit) : Log :=
  { l with onCloseCallback := some cb }

/-- The serialized wire body produced by `Log#dump` (optional fields
are absent when their `if` in the source does not fire). -/
structure DumpBody where
  name : LogType
  time : String
  is_active : Option Bool
  client_id : Option JSVal
  job_id : Option JSVal
  task_id : Option JSVal
  payload : JSObj
  deriving DecidableEq

/-- `Log#dump` (log.js lines 40-70): copy the payload, lift
`client_id`, `job_id` and `task_id` out of it into top-level fields
when present, include `is_active` only when `isActive` is defined.
The source's payload copy is the identity on the embedded field
list. -/
def Log.dump (l : Log) : DumpBody :=
  let c := liftKey l.payload "client_id"
  let j := liftKey c.2 "job_id"
  let tk := liftKey j.2 "task_id"
  { name := l.type
    time := toISOString l.time
    is_active := l.isActive
    client_id := c.1
    job_id := j.1
    task_id := tk.1
    payload := tk.2 }

/-- `Log.prototype.close.implementation` (log.js lines 90-108): reject
a non-object payload, reject a non-serializable payload, set
`payload.duration = now - time`, merge the extra payload over the
record's payload, and invoke the close hook when one is registered.
The returned Bool reports whether the hook fired. -/
def Log.closeImpl (h : Heap) (now : Int) (l : Log) (payload : JSVal) :
    Except JSError (Log × Bool) :=
  if typeofIsObject payload = false then
    Except.error (JSError.argumentError "Payload must be an object")
  else if jsonSerializable h payload = false then
    Except.error (JSError.argumentError serializableErrMsg)
  else
    let withDuration := setField l.payload "duration" (JSVal.num ((now - l.time : Int) : ℚ))
    Except.ok
      ({ l with payload := spreadObj withDuration (spreadVal h payload) },
       l.onCloseCallback.isSome)

/-- The `DeleteObjectLog` count error message; the source concatenates
the two halves without a separator, hence `logIt`. -/
def deleteCountMsg (t : LogType) : String :=
  "The field \"count\" is required for \"" ++ logTypeName t ++ "\" log"
    ++ "It must be a positive integer"

/-- `new DeleteObjectLog(logType, isDurable, payload)` (log.js lines
112-121): the base constructor runs first, then `payload.count` must
be an integer not less than 1. -/
def DeleteObjectLog.construct (t : LogType) (isD : JSVal) (p : JSVal) (h : Heap)
    (now : Int) (focus : Option Bool) : Except JSError Log :=
  match logNew t isD p h now focus with
  | Except.error e => Except.error e
  | Except.ok log =>
      match jsGetProp h p "count" with
      | Except.error e => Except.error e
      | Except.ok count =>
          if !numIsInteger count || jsNumLt count 1 then
            Except.error (JSError.argumentError (deleteCountMsg t))
          else
            Except.ok log

/-- The `SendTaskInfoLog` `generateError` message. -/
def taskInfoMsg (t : LogType) (field range : String) : String :=
  "The field \"" ++ field ++ "\" is required for \"" ++ logTypeName t ++ "\" log. " ++ range

/-- One required-field check of `SendTaskInfoLog`: the field must be an
integer not less than the bound. -/
def requireIntField (h : Heap) (p : JSVal) (t : LogType) (field : String)
    (lo : ℚ) (range : String) : Except JSError Unit :=
  match jsGetProp h p field with
  | Except.error e => Except.error e
  | Except.ok v =>
      if !numIsInteger v || jsNumLt v lo then
        Except.error (JSError.argumentError (taskInfoMsg t field range))
      else
        Except.ok ()

/-- `new SendTaskInfoLog(logType, isDurable, payload)` (log.js lines
123-158): the base constructor, then seven fail-fast integer checks. -/
def SendTaskInfoLog.construct (t : LogType) (isD : JSVal) (p : JSVal) (h : Heap)
    (now : Int) (focus : Option Bool) : Except JSError Log := do
  let log ← logNew t isD p h now focus
  requireIntField h p t "track count" 0 "It must be an integer not less than 0"
  requireIntField h p t "frame count" 1 "It must be an integer not less than 1"
  requireIntField h p t "object count" 0 "It must be an integer not less than 0"
  requireIntField h p t "box count" 0 "It must be an integer not less than 0"
  requireIntField h p t "polygon count" 0 "It must be an integer not less than 0"
  requireIntField h p t "polyline count" 0 "It must be an integer not less than 0"
  requireIntField h p t "points count" 0 "It must be an integer not less than 0"
  return log

/-- `logFactory(logType, isDurable, payload)` (log.js lines 161-194):
dispatch on the type tag.  The eight recognized-but-unimplemented
branches of the source contain only comments and construct nothing, so
the call evaluates to JS `undefined` — here `Except.ok none`. -/
def logFactory (t : LogType) (isD : JSVal) (p : JSVal) (h : Heap) (now : Int)
    (focus : Option Bool) : Except JSError (Option Log) :=
  if t = LogType.deleteObject then
    (DeleteObjectLog.construct t isD p h now focus).map some
  else if t = LogType.sendTaskInfo then
    (SendTaskInfoLog.construct t isD p h now focus).map some
  else if t = LogType.loadJob then Except.ok none
  else if t = LogType.mergeObjects then Except.ok none
  else if t = LogType.copyObject then Except.ok none
  else if t = LogType.propagateObject then Except.ok none
  else if t = LogType.undoAction then Except.ok none
  else if t = LogType.redoAction then Except.ok none
  else if t = LogType.sendUserActivity then Except.ok none
  else if t = LogType.sendException then Except.ok none
  else (logNew t isD p h now focus).map some

/-- The `LoggerStorage` state (the unnamed store module): the session
identifier and the buffer of pending records. -/
structure LoggerStorage where
  clientID : String
  collection : List Log
  deriving DecidableEq

/-- JS `s.substr(-6)`: the last six characters (the whole string when
shorter). -/
def substrLastSix (s : String) : String :=
  String.mk (s.data.drop (s.data.length - 6))

/-- The `LoggerStorage` constructor:
`clientID = Date.now().toString().substr(-6)`, empty buffer. -/
def LoggerStorage.init (nowMs : Int) : LoggerStorage :=
  { clientID := substrLastSix (toString nowMs), collection := [] }

/-- `LoggerStorage.prototype.put.implementation` (store lines 32-43).
The source builds the object literal with the spread payload and
`client_id`, then evaluates `new Log(logType, thatObject)` — two
arguments for the three-parameter constructor, so the literal becomes
`isDurable` and the constructor's `payload` parameter is `undefined`.
With `wait` truthy the source then evaluates
`log.onCloseCallback(() => { this.collection.push(log); })`; the
`onCloseCallback` member is the data field the constructor initialized
to `null` (registration is the `onClose` method), so the host raises a
`TypeError` there.  With `wait` falsy the record is appended and
returned. -/
def LoggerStorage.putImpl (st : LoggerStorage) (h : Heap) (now : Int)
    (focus : Option Bool) (logType : LogType) (wait : Bool) (payload : JSVal) :
    Except JSError (Log × LoggerStorage × Heap) :=
  let enriched := setField (spreadVal h payload) "client_id" (JSVal.str st.clientID)
  let addr := freshAddr h
  let h' := (addr, enriched) :: h
  match logNew logType (JSVal.ref addr) JSVal.undef h' now focus with
  | Except.error e => Except.error e
  | Except.ok log =>
      if wait then
        Except.error (JSError.typeError "log.onCloseCallback is not a function")
      else
        Except.ok (log, { st with collection := st.collection ++ [log] }, h')

/-- `LoggerStorage.prototype.save.implementation` (store lines 45-48):
serialize the buffer in order, hand the array to the transport, and
clear the buffer only when the transport call resolves.  A transport
rejection propagates (third component) and the assignment clearing the
collection never runs. -/
def LoggerStorage.saveImpl (transport : List DumpBody → Except String Unit)
    (st : LoggerStorage) : List DumpBody × LoggerStorage × Option String :=
  let sent := st.collection.map Log.dump
  match transport sent with
  | Except.ok _ => (sent, { st with collection := [] }, none)
  | Except.error e => (sent, st, some e)

/-- A straight-line caller issuing a sequence of `close(payload)` calls
at given times; counts how often the close hook fires.  A validation
error aborts the remaining calls. -/
def runCloses (h : Heap) : Log → List (Int × JSVal) → Log × Nat
  | l, [] => (l, 0)
  | l, (t, p) :: ops =>
      match Log.closeImpl h t l p with
      | Except.error _ => (l, 0)
      | Except.ok (l', fired) =>
          let rest := runCloses h l' ops
          (rest.1, (if fired then 1 else 0) + rest.2)

/-- Store state used by the concrete `put` scenarios. -/
def putSt : LoggerStorage :=
  { clientID := "123456", collection := [] }

/-- A heap holding the caller payload object `\x7b a: 1 \x7d` at address 0. -/
def putHeap : Heap :=
  [(0, [("a", JSVal.num 1)])]

/-- A heap holding the payload `\x7b count: 0 \x7d` at address 0. -/
def putHeapCount : Heap :=
  [(0, [("count", JSVal.num 0)])]

/-- A heap whose single object refers to itself: a circular payload. -/
def cycHeap : Heap :=
  [(0, [("self", JSVal.ref 0)])]

/-- The record `logNew` returns for the payload at `putHeap` address 0. -/
def okRec : Log :=
  { type := LogType.other "x", isDurable := JSVal.bool false,
    payload := [("a", JSVal.num 1)], onCloseCallback := none,
    time := 0, isActive := none }

/-- An open durable record with a registered close hook. -/
def hookLog : Log :=
  { type := LogType.other "job", isDurable := JSVal.bool true,
    payload := [], onCloseCallback := some (), time := 0, isActive := none }

/-- Two successive `close(null)` calls on the same record. -/
def twoCloses : List (Int × JSVal) :=
  [(5, JSVal.null), (9, JSVal.null)]

/-- A heap holding the closing payload `\x7b note: "done" \x7d` at
address 0, for the mixed-payload close sequence. -/
def hookHeap : Heap :=
  [(0, [("note", JSVal.str "done")])]

/-- A close sequence with two different valid payloads: an object
reference and `null`. -/
def mixedCloses : List (Int × JSVal) :=
  [(3, JSVal.ref 0), (9, JSVal.null)]

/-- An open record for the close-scenario witness (created at 10 ms). -/
def closeLog : Log :=
  { type := LogType.other "ui", isDurable := JSVal.bool true,
    payload := [], onCloseCallback := none, time := 10, isActive := none }

/-- A heap holding the closing payload `\x7b outcome: "ok" \x7d` at address 0. -/
def closeHeap : Heap :=
  [(0, [("outcome", JSVal.str "ok")])]

theorem getField_setField_self (o : JSObj) (k : String) (v : JSVal) :
    getField (setField o k v) k = some v := by
  induction o with
  | nil => simp [setField, getField]
  | cons hd tl ih =>
      obtain ⟨k0, v0⟩ := hd
      by_cases hk : k0 = k
      · simp [setField, getField, hk]
      · simp [setField, getField, hk, ih]

theorem getField_setField_ne (o : JSObj) (k k' : String) (v : JSVal) (hne : k' ≠ k) :
    getField (setField o k v) k' = getField o k' := by
  have hne' : ¬ k = k' := fun hh => hne (Eq.symm hh)
  induction o with
  | nil => simp [setField, getField, hne']
  | cons hd tl ih =>
      obtain ⟨k0, v0⟩ := hd
      by_cases hk : k0 = k
      · subst hk
        simp [setField, getField, hne']
      · by_cases hk' : k0 = k'
        · subst hk'
          simp [setField, getField, hk]
        · simp [setField, getField, hk, hk', ih]

theorem getField_deleteField_self (o : JSObj) (k : String) :
    getField (deleteField o k) k = none := by
  induction o with
  | nil => simp [deleteField, getField]
  | cons hd tl ih =>
      obtain ⟨k0, v0⟩ := hd
      by_cases hk : k0 = k
      · simp [deleteField, hk, ih]
      · simp [deleteField, getField, hk, ih]

theorem getField_deleteField_ne (o : JSObj) (k k' : String) (hne : k' ≠ k) :
    getField (deleteField o k) k' = getField o k' := by
  have hne' : ¬ k = k' := fun hh => hne (Eq.symm hh)
  induction o with
  | nil => simp [deleteField]
  | cons hd tl ih =>
      obtain ⟨k0, v0⟩ := hd
      by_cases hk : k0 = k
      · subst hk
        simp [deleteField, getField, hne', ih]
      · by_cases hk' : k0 = k'
        · subst hk'
          simp [deleteField, getField, hk]
        · simp [deleteField, getField, hk, hk', ih]

theorem getField_eq_none_of_notMem (o : JSObj) (k : String)
    (h : k ∉ o.map Prod.fst) : getField o k = none := by
  induction o with
  | nil => rfl
  | cons hd tl ih =>
      obtain ⟨k0, v0⟩ := hd
      simp only [List.map_cons, List.mem_cons] at h
      push_neg at h
      have hne : ¬ k0 = k := fun hh => h.1 (Eq.symm hh)
      simp [getField, hne, ih h.2]

theorem getField_spreadObj_of_none (a b : JSObj) (k : String)
    (hb : getField b k = none) : getField (spreadObj a b) k = getField a k := by
  induction b generalizing a with
  | nil => rfl
  | cons hd rest ih =>
      obtain ⟨k0, v0⟩ := hd
      by_cases hk : k0 = k
      · simp [getField, hk] at hb
      · simp only [getField, if_neg hk] at hb
        have hstep : spreadObj a ((k0, v0) :: rest) = spreadObj (setField a k0 v0) rest := rfl
        rw [hstep, ih (setField a k0 v0) hb]
        exact getField_setField_ne a k0 k v0 (fun hh : k = k0 => hk (Eq.symm hh))

theorem getField_spreadObj_of_some (a b : JSObj) (k : String) (v : JSVal)
    (hnd : (b.map Prod.fst).Nodup) (hb : getField b k = some v) :
    getField (spreadObj a b) k = some v := by
  induction b generalizing a with
  | nil => simp [getField] at hb
  | cons hd rest ih =>
      obtain ⟨k0, v0⟩ := hd
      simp only [List.map_cons, List.nodup_cons] at hnd
      have hstep : spreadObj a ((k0, v0) :: rest) = spreadObj (setField a k0 v0) rest := rfl
      by_cases hk : k0 = k
      · subst hk
        simp only [getField, if_pos, eq_self_iff_true, if_true] at hb
        have hrest : getField rest k0 = none :=
          getField_eq_none_of_notMem rest k0 hnd.1
        rw [hstep, getField_spreadObj_of_none _ _ _ hrest,
          getField_setField_self, hb]
      · simp only [getField, if_neg hk] at hb
        rw [hstep]
        exact ih (setField a k0 v0) hnd.2 hb

theorem liftKey_fst (o : JSObj) (k : String) :
    (liftKey o k).1 = getField o k := by
  cases hgf : getField o k with
  | none => simp [liftKey, hasField, hgf]
  | some v => simp [liftKey, hasField, hgf]

theorem hasField_liftKey_snd_self (o : JSObj) (k : String) :
    hasField (liftKey o k).2 k = false := by
  cases hgf : getField o k with
  | none => simp [liftKey, hasField, hgf]
  | some v => simp [liftKey, hasField, hgf, getField_deleteField_self]

theorem getField_liftKey_snd_ne (o : JSObj) (k k' : String) (hne : k' ≠ k) :
    getField (liftKey o k).2 k' = getField o k' := by
  cases hgf : getField o k with
  | none => simp [liftKey, hasField, hgf]
  | some v => simp [liftKey, hasField, hgf, getField_deleteField_ne o k k' hne]

theorem hasField_liftKey_snd_ne (o : JSObj) (k k' : String) (hne : k' ≠ k) :
    hasField (liftKey o k).2 k' = hasField o k' := by
  simp [hasField, getField_liftKey_snd_ne o k k' hne]

/-- Helper: `close(null)` passes both validation checks (`typeof null`
is `object` and `null` is serializable), injects `duration`, merges
nothing, and fires the hook exactly when one is registered. -/
theorem closeImpl_null_eq (h : Heap) (now : Int) (l : Log) :
    Log.closeImpl h now l JSVal.null =
      Except.ok ({ l with payload := setField l.payload "duration" (JSVal.num ((now - l.time : Int) : ℚ)) },
        l.onCloseCallback.isSome) := rfl

/-- Helper: a close call with a payload that passes both validation
checks succeeds, whatever the record and the close time: it injects
`duration`, merges the spread payload, reports whether the hook is
registered, and preserves the registration. -/
theorem closeImpl_ok_of_valid (h : Heap) (now : Int) (l : Log) (p : JSVal)
    (h1 : typeofIsObject p = true) (h2 : jsonSerializable h p = true) :
    Log.closeImpl h now l p =
      Except.ok ({ l with payload := spreadObj (setField l.payload "duration" (JSVal.num ((now - l.time : Int) : ℚ))) (spreadVal h p) },
        l.onCloseCallback.isSome) := by
  simp [Log.closeImpl, h1, h2]

/-- Helper: a close call succeeds exactly when its payload passes the
object-type check and the serializability check, independent of the
record and the close time. -/
theorem closeImpl_ok_iff (h : Heap) (now : Int) (l : Log) (p : JSVal) :
    (∃ res, Log.closeImpl h now l p = Except.ok res) ↔
      (typeofIsObject p = true ∧ jsonSerializable h p = true) := by
  constructor
  · rintro ⟨res, hres⟩
    simp only [Log.closeImpl] at hres
    by_cases h1 : typeofIsObject p = false
    · rw [if_pos h1] at hres
      cases hres
    · rw [if_neg h1] at hres
      by_cases h2 : jsonSerializable h p = false
      · rw [if_pos h2] at hres
        cases hres
      · refine ⟨?_, ?_⟩
        · cases hb : typeofIsObject p with
          | true => rfl
          | false => exact absurd hb h1
        · cases hb : jsonSerializable h p with
          | true => rfl
          | false => exact absurd hb h2
  · rintro ⟨h1, h2⟩
    exact ⟨_, closeImpl_ok_of_valid h now l p h1 h2⟩

/-- Helper: the `DeleteObjectLog` count check passes exactly when the
`count` field holds an integral number not less than 1. -/
theorem countCheck_iff (mv : Option JSVal) :
    ((!numIsInteger (mv.getD JSVal.undef) || jsNumLt (mv.getD JSVal.undef) 1) = false) ↔
      ∃ q : ℚ, mv = some (JSVal.num q) ∧ q.den = 1 ∧ 1 ≤ q := by
  cases mv with
  | none => simp [numIsInteger, jsNumLt]
  | some v =>
      cases v with
      | num q => simp [numIsInteger, jsNumLt, not_lt]
      | str s => simp [numIsInteger, jsNumLt]
      | bool b => simp [numIsInteger, jsNumLt]
      | null => simp [numIsInteger, jsNumLt]
      | undef => simp [numIsInteger, jsNumLt]
      | ref a2 => simp [numIsInteger, jsNumLt]

/-- Claim C1: for every store state, `save` (flush) serializes every
buffered record in insertion order, hands exactly that ordered array to
the transport, and replaces the buffer with an empty sequence only when
the transport call resolves; when the transport call fails, the store
still holds exactly the records it held before the flush. -/
theorem saveImpl_flush_spec (transport : List DumpBody → Except String Unit)
    (st : LoggerStorage) :
    (LoggerStorage.saveImpl transport st).1 = st.collection.map Log.dump ∧
    (LoggerStorage.saveImpl transport st).2.1 =
      (if (LoggerStorage.saveImpl transport st).2.2 = none
        then { st with collection := ([] : List Log) } else st) ∧
    ((LoggerStorage.saveImpl transport st).2.2 = none ↔
      transport (st.collection.map Log.dump) = Except.ok ()) := by
  cases htr : transport (st.collection.map Log.dump) with
  | ok u => cases u; simp [LoggerStorage.saveImpl, htr]
  | error e => simp [LoggerStorage.saveImpl, htr]

/-- Claim C2 (code bug evidence): `put` does not build the record
through the factory and does not enrich its payload.  With the payload
object at address 0 holding one field `a`, the non-durable `put`
succeeds, but the returned record has the empty payload (so no
`client_id` in it), while the enriched object ended up stored as the
`isDurable` member; and a `delete-object` `put` with `count = 0`
succeeds although the factory would reject that payload. -/
theorem put_drops_payload_and_bypasses_factory :
    (∃ log st' h', LoggerStorage.putImpl putSt putHeap 7 none (LogType.other "x") false (JSVal.ref 0) = Except.ok (log, st', h') ∧
      log.payload = [] ∧
      getField log.payload "client_id" = none ∧
      log.isDurable = JSVal.ref 1 ∧
      heapGet h' 1 = [("a", JSVal.num 1), ("client_id", JSVal.str "123456")] ∧
      st'.collection = [log]) ∧
    (∃ log st' h', LoggerStorage.putImpl putSt putHeapCount 7 none LogType.deleteObject false (JSVal.ref 0) = Except.ok (log, st', h') ∧
      log.payload = []) :=
  ⟨⟨_, _, _, rfl, rfl, rfl, rfl, rfl, rfl⟩, ⟨_, _, _, rfl, rfl⟩⟩

/-- Claim C3 (code bug evidence): `put` with `wait = true` does not
register a close hook and return the open record — it throws a
`TypeError`, because the source invokes the `onCloseCallback` data
field (still `null`) instead of the `onClose` method.  The
`wait = false` path does append the record to the buffer and return
it. -/
theorem put_wait_throws_typeerror :
    LoggerStorage.putImpl putSt putHeap 7 none (LogType.other "x") true (JSVal.ref 0) =
      Except.error (JSError.typeError "log.onCloseCallback is not a function") ∧
    (∃ log st' h', LoggerStorage.putImpl putSt putHeap 7 none (LogType.other "x") false (JSVal.ref 0) = Except.ok (log, st', h') ∧
      st'.collection = putSt.collection ++ [log]) :=
  ⟨rfl, ⟨_, _, _, rfl, rfl⟩⟩

/-- Claim C4: the serialized body of a record contains none of the keys
`client_id`, `job_id`, `task_id` inside its nested payload; each of
those keys appears instead as the corresponding top-level field exactly
as it was in the payload of the record; and `is_active` is present at
top level exactly when `isActive` is defined. -/
theorem dump_promotes_reserved_keys (l : Log) :
    hasField (Log.dump l).payload "client_id" = false ∧
    hasField (Log.dump l).payload "job_id" = false ∧
    hasField (Log.dump l).payload "task_id" = false ∧
    (Log.dump l).client_id = getField l.payload "client_id" ∧
    (Log.dump l).job_id = getField l.payload "job_id" ∧
    (Log.dump l).task_id = getField l.payload "task_id" ∧
    (Log.dump l).is_active = l.isActive := by
  have hcj : ("client_id" : String) ≠ "job_id" := by decide
  have hct : ("client_id" : String) ≠ "task_id" := by decide
  have hjc : ("job_id" : String) ≠ "client_id" := by decide
  have hjt : ("job_id" : String) ≠ "task_id" := by decide
  have htc : ("task_id" : String) ≠ "client_id" := by decide
  have htj : ("task_id" : String) ≠ "job_id" := by decide
  refine ⟨?_, ?_, ?_, ?_, ?_, ?_, rfl⟩
  · show hasField (liftKey (liftKey (liftKey l.payload "client_id").2 "job_id").2 "task_id").2 "client_id" = false
    rw [hasField_liftKey_snd_ne _ _ _ hct, hasField_liftKey_snd_ne _ _ _ hcj,
      hasField_liftKey_snd_self]
  · show hasField (liftKey (liftKey (liftKey l.payload "client_id").2 "job_id").2 "task_id").2 "job_id" = false
    rw [hasField_liftKey_snd_ne _ _ _ hjt, hasField_liftKey_snd_self]
  · exact hasField_liftKey_snd_self _ _
  · show (liftKey l.payload "client_id").1 = getField l.payload "client_id"
    exact liftKey_fst _ _
  · show (liftKey (liftKey l.payload "client_id").2 "job_id").1 = getField l.payload "job_id"
    rw [liftKey_fst, getField_liftKey_snd_ne _ _ _ hjc]
  · show (liftKey (liftKey (liftKey l.payload "client_id").2 "job_id").2 "task_id").1 = getField l.payload "task_id"
    rw [liftKey_fst, getField_liftKey_snd_ne _ _ _ htj, getField_liftKey_snd_ne _ _ _ htc]

/-- Claim C5: closing an open record with a valid object payload
injects `duration = closeTime - createdAt` (a non-negative integral
number of milliseconds when time is monotone) into the payload before
merging the closing payload, and the merge lets the closing payload win
on every key conflict, `duration` included. -/
theorem close_duration_spec (h : Heap) (l : Log) (now : Int) (a : Nat)
    (hser : jsonSerializable h (JSVal.ref a) = true)
    (hnd : ((heapGet h a).map Prod.fst).Nodup)
    (hmono : l.time ≤ now) :
    Log.closeImpl h now l (JSVal.ref a) =
      Except.ok ({ l with payload := spreadObj (setField l.payload "duration" (JSVal.num ((now - l.time : Int) : ℚ))) (heapGet h a) },
        l.onCloseCallback.isSome) ∧
    (∀ k : String,
      getField (spreadObj (setField l.payload "duration" (JSVal.num ((now - l.time : Int) : ℚ))) (heapGet h a)) k =
        if (getField (heapGet h a) k).isSome then getField (heapGet h a) k
        else getField (setField l.payload "duration" (JSVal.num ((now - l.time : Int) : ℚ))) k) ∧
    (getField (heapGet h a) "duration" = none →
      getField (spreadObj (setField l.payload "duration" (JSVal.num ((now - l.time : Int) : ℚ))) (heapGet h a)) "duration" =
        some (JSVal.num ((now - l.time : Int) : ℚ))) ∧
    0 ≤ ((now - l.time : Int) : ℚ) ∧ ((now - l.time : Int) : ℚ).den = 1 := by
  refine ⟨?_, ?_, ?_, ?_, ?_⟩
  · simp [Log.closeImpl, typeofIsObject, hser, spreadVal]
  · intro k
    cases hk : getField (heapGet h a) k with
    | none => simp [getField_spreadObj_of_none _ _ _ hk]
    | some v => simp [getField_spreadObj_of_some _ _ _ v hnd hk, hk]
  · intro hnone
    rw [getField_spreadObj_of_none _ _ _ hnone, getField_setField_self]
  · exact_mod_cast Int.sub_nonneg.mpr hmono
  · exact Rat.den_intCast _

/-- Witness for claim C5: closing a record created at 10 ms at close
time 60 ms with payload `\x7b outcome: "ok" \x7d` yields the computed
record and a `duration` field equal to 50 ms. -/
theorem close_duration_spec_witness :
    Log.closeImpl closeHeap 60 closeLog (JSVal.ref 0) =
      Except.ok ({ closeLog with payload := spreadObj (setField closeLog.payload "duration" (JSVal.num ((60 - closeLog.time : Int) : ℚ))) (heapGet closeHeap 0) },
        closeLog.onCloseCallback.isSome) ∧
    getField (spreadObj (setField closeLog.payload "duration" (JSVal.num ((60 - closeLog.time : Int) : ℚ))) (heapGet closeHeap 0)) "duration" =
      some (JSVal.num ((60 - closeLog.time : Int) : ℚ)) := by
  have h := close_duration_spec closeHeap closeLog 60 0 (by decide) (by decide) (by decide)
  exact ⟨h.1, h.2.2.1 (by decide)⟩

/-- Claim C6: constructing a delete-object event (with a serializable
object payload) succeeds exactly when `payload.count` is an integer not
less than 1; for every other `count` (0, negative, non-integral or
absent) construction fails with the validation error whose message
mentions the field `count`. -/
theorem deleteObject_requires_positive_count (isD : JSVal) (h : Heap) (a : Nat)
    (now : Int) (focus : Option Bool)
    (hser : jsonSerializable h (JSVal.ref a) = true) :
    ((∃ log, logFactory LogType.deleteObject isD (JSVal.ref a) h now focus = Except.ok (some log)) ↔
      (∃ q : ℚ, getField (heapGet h a) "count" = some (JSVal.num q) ∧ q.den = 1 ∧ 1 ≤ q)) ∧
    ((∀ q : ℚ, getField (heapGet h a) "count" = some (JSVal.num q) → q.den = 1 → 1 ≤ q → False) →
      logFactory LogType.deleteObject isD (JSVal.ref a) h now focus =
        Except.error (JSError.argumentError (deleteCountMsg LogType.deleteObject))) ∧
    strContains (deleteCountMsg LogType.deleteObject) "count" = true := by
  have hfac : logFactory LogType.deleteObject isD (JSVal.ref a) h now focus =
      (DeleteObjectLog.construct LogType.deleteObject isD (JSVal.ref a) h now focus).map some := by
    simp [logFactory]
  obtain ⟨lg, hnew⟩ : ∃ lg, logNew LogType.deleteObject isD (JSVal.ref a) h now focus = Except.ok lg :=
    ⟨_, by unfold logNew; rw [if_pos hser]⟩
  cases hchk : (!numIsInteger ((getField (heapGet h a) "count").getD JSVal.undef) ||
      jsNumLt ((getField (heapGet h a) "count").getD JSVal.undef) 1) with
  | true =>
      have hcons : DeleteObjectLog.construct LogType.deleteObject isD (JSVal.ref a) h now focus =
          Except.error (JSError.argumentError (deleteCountMsg LogType.deleteObject)) := by
        unfold DeleteObjectLog.construct
        rw [hnew]
        simp [jsGetProp, hchk]
      refine ⟨?_, fun _ => by rw [hfac, hcons]; rfl, by decide⟩
      constructor
      · rintro ⟨log, hlog⟩
        rw [hfac, hcons] at hlog
        cases hlog
      · intro hex
        have hfalse := (countCheck_iff (getField (heapGet h a) "count")).mpr hex
        rw [hchk] at hfalse
        cases hfalse
  | false =>
      have hcons : DeleteObjectLog.construct LogType.deleteObject isD (JSVal.ref a) h now focus =
          Except.ok lg := by
        unfold DeleteObjectLog.construct
        rw [hnew]
        simp [jsGetProp, hchk]
      refine ⟨?_, ?_, by decide⟩
      · constructor
        · intro _
          exact (countCheck_iff (getField (heapGet h a) "count")).mp hchk
        · intro _
          exact ⟨lg, by rw [hfac, hcons]; rfl⟩
      · intro hnone
        exfalso
        obtain ⟨q, h1, h2, h3⟩ := (countCheck_iff (getField (heapGet h a) "count")).mp hchk
        exact hnone q h1 h2 h3

/-- Witness for claim C6: a delete-object construction with
`count = 0` fails with the validation error mentioning `count`. -/
theorem deleteObject_requires_positive_count_witness :
    logFactory LogType.deleteObject (JSVal.bool false) (JSVal.ref 0) putHeapCount 7 none =
      Except.error (JSError.argumentError (deleteCountMsg LogType.deleteObject)) := by
  have h := deleteObject_requires_positive_count (JSVal.bool false) putHeapCount 0 7 none (by decide)
  refine h.2.1 ?_
  intro q hq hden hge
  have h0 : some (JSVal.num 0) = some (JSVal.num q) :=
    (show getField (heapGet putHeapCount 0) "count" = some (JSVal.num 0) from rfl).symm.trans hq
  injection h0 with h1
  injection h1 with h2
  rw [← h2] at hge
  exact absurd hge (by norm_num)

/-- Claim C7: for every payload and every type tag in the
recognized-but-unimplemented set, the factory returns no record and
raises no error — the call is a silent no-op whose result is the JS
`undefined`. -/
theorem factory_unimplemented_silent (t : LogType) (isD p : JSVal) (h : Heap)
    (now : Int) (focus : Option Bool)
    (ht : t ∈ ([LogType.loadJob, LogType.mergeObjects, LogType.copyObject,
      LogType.propagateObject, LogType.undoAction, LogType.redoAction,
      LogType.sendUserActivity, LogType.sendException] : List LogType)) :
    logFactory t isD p h now focus = Except.ok none := by
  fin_cases ht <;> rfl

/-- Witness for claim C7: the `job-load` tag yields no record and no
error. -/
theorem factory_unimplemented_silent_witness :
    logFactory LogType.loadJob (JSVal.bool true) JSVal.undef [] 0 none = Except.ok none :=
  factory_unimplemented_silent LogType.loadJob (JSVal.bool true) JSVal.undef [] 0 none (by decide)

/-- Claim C8: the base record constructor raises the validation error
exactly when the payload is not JSON-serializable (a circular payload
is refused, as the concrete self-referential heap shows); on success
the record exists and stores a shallow copy of the own fields of the
payload object (`spreadVal`/`heapGet` at construction time, a list
value no longer tied to the heap address), so later mutation of the
original object cannot affect the record; in the failing case the
result is an error and no record component exists. -/
theorem logNew_serializable_spec (t : LogType) (isD p : JSVal) (h : Heap) (a : Nat)
    (now : Int) (focus : Option Bool) :
    ((∃ msg, logNew t isD p h now focus = Except.error (JSError.argumentError msg)) ↔
      jsonSerializable h p = false) ∧
    (∀ log, logNew t isD p h now focus = Except.ok log →
      log.payload = spreadVal h p ∧ log.onCloseCallback = none ∧
      log.time = now ∧ log.isActive = focus) ∧
    (∀ log, logNew t isD (JSVal.ref a) h now focus = Except.ok log →
      log.payload = heapGet h a) ∧
    logNew t isD (JSVal.ref 0) cycHeap now focus =
      Except.error (JSError.argumentError serializableErrMsg) ∧
    jsonSerializable cycHeap (JSVal.ref 0) = false := by
  refine ⟨?_, ?_, ?_, ?_, by decide⟩
  · cases hser : jsonSerializable h p with
    | true => simp [logNew, hser]
    | false => simp [logNew, hser]
  · intro log hlog
    cases hser : jsonSerializable h p with
    | true =>
        rw [logNew, if_pos hser] at hlog
        injection hlog with hlog
        subst hlog
        exact ⟨rfl, rfl, rfl, rfl⟩
    | false => rw [logNew, if_neg (by simp [hser])] at hlog; cases hlog
  · intro log hlog
    cases hser : jsonSerializable h (JSVal.ref a) with
    | true =>
        rw [logNew, if_pos hser] at hlog
        injection hlog with hlog
        subst hlog
        rfl
    | false => rw [logNew, if_neg (by simp [hser])] at hlog; cases hlog
  · rfl

/-- Witness for claim C8: constructing from the serializable payload at
`putHeap` address 0 yields the record `okRec`, whose payload is the
field-list copy of that object. -/
theorem logNew_serializable_spec_witness :
    okRec.payload = spreadVal putHeap (JSVal.ref 0) ∧ okRec.onCloseCallback = none ∧
    okRec.time = 0 ∧ okRec.isActive = none :=
  (logNew_serializable_spec (LogType.other "x") (JSVal.bool false) (JSVal.ref 0) putHeap 0 0 none).2.1 okRec rfl

/-- Counterexample to claim C9 as stated: a record with a registered
close hook, closed twice, fires the hook twice — more than once over
the lifetime of the record. -/
theorem close_hook_fires_twice_counterexample :
    (runCloses [] hookLog twoCloses).2 = 2 ∧ ¬ (runCloses [] hookLog twoCloses).2 ≤ 1 := by
  constructor
  · rfl
  · decide

/-- Claim C9 as amended: with a hook registered, every successful
`close()` call fires the hook exactly once, whatever its close payload
— a sequence of n successful closes fires it n times (so two closes
fire it twice), and no firing happens outside a `close()` call (the
empty sequence fires it zero times).  The hypothesis ranges over every
sequence of close calls whose payloads pass the two validation checks,
which — as the last conjunct records — is exactly the set of
sequences of successful close calls. -/
theorem close_hook_fires_once_per_close (h : Heap) (l : Log) (ops : List (Int × JSVal))
    (hreg : l.onCloseCallback.isSome = true)
    (hok : ∀ op ∈ ops, typeofIsObject op.2 = true ∧ jsonSerializable h op.2 = true) :
    (runCloses h l ops).2 = ops.length ∧
    (runCloses h l []).2 = 0 ∧
    (∀ (lg : Log) (tm : Int) (p : JSVal),
      (∃ res, Log.closeImpl h tm lg p = Except.ok res) ↔
        (typeofIsObject p = true ∧ jsonSerializable h p = true)) := by
  refine ⟨?_, rfl, fun lg tm p => closeImpl_ok_iff h tm lg p⟩
  induction ops generalizing l with
  | nil => rfl
  | cons op rest ih =>
      obtain ⟨t, p⟩ := op
      have hv := hok (t, p) (List.mem_cons_self _ _)
      simp only [runCloses, closeImpl_ok_of_valid h t l p hv.1 hv.2]
      rw [hreg]
      have ihl := ih { l with payload := spreadObj (setField l.payload "duration" (JSVal.num ((t - l.time : Int) : ℚ))) (spreadVal h p) } hreg
        (fun op2 hop2 => hok op2 (List.mem_cons_of_mem _ hop2))
      rw [ihl]
      simp [Nat.add_comm]

/-- Witness for amended claim C9: a hooked record closed twice with
two different valid payloads (an object reference and `null`) fires
the hook twice, and the empty sequence fires it zero times. -/
theorem close_hook_fires_once_per_close_witness :
    (runCloses hookHeap hookLog mixedCloses).2 = mixedCloses.length ∧
    (runCloses hookHeap hookLog []).2 = 0 :=
  ⟨(close_hook_fires_once_per_close hookHeap hookLog mixedCloses (by decide) (by decide)).1,
   (close_hook_fires_once_per_close hookHeap hookLog mixedCloses (by decide) (by decide)).2.1⟩

/-- Claim C10: `close(null)` passes the object-type check (in JS,
`typeof null` is `object`), passes the serializability check, and
completes exactly like `close` of an empty object: the payload is
unchanged except for the injected `duration` field. -/
theorem close_null_spec (h : Heap) (l : Log) (now : Int) :
    Log.closeImpl h now l JSVal.null =
      Except.ok ({ l with payload := setField l.payload "duration" (JSVal.num ((now - l.time : Int) : ℚ)) },
        l.onCloseCallback.isSome) ∧
    Log.closeImpl h now l JSVal.null = Log.closeImpl [(0, [])] now l (JSVal.ref 0) :=
  ⟨closeImpl_null_eq h now l, (closeImpl_null_eq h now l).trans (closeImpl_null_eq [(0, [])] now l).symm⟩
